import Mathlib

/-!
Verification development for the boat-rental scraping pipeline
(repository rent_django).  The Python sources under boats/ are shallowly
embedded: pure numeric code over Python floats is modelled over the
rationals, module-level dictionaries become Lean structures, and the
small stateful fragments (image pipeline, page fetch loop, search-API
retry) are modelled as explicit state passing.

Sections follow the source files:
  - boats/helpers.py   : pricing constants, discount calculator,
                         cache freshness, tourist package price
  - boats/parser.py    : add_currency_param, download_and_save_image,
                         fetch_page, gallery replacement
  - boats/boataround_api.py : BoataroundAPI.search 500-retry handling
-/

namespace RentDjango

/-! ## boats/helpers.py : pricing constants

The module defines the constant block twice (lines 8-26 and lines
340-358).  All values agree between the two blocks except
DOUBLE_CABIN_EXTRA, which is first bound to 200 (line 20) and then
rebound to 180 (line 354); at call time calculate_tourist_price sees the
later binding, so the effective value is 180. -/

def INSURANCE_RATE : ℚ := 10 / 100
def INSURANCE_MIN : ℚ := 400
def TURKEY_BASE_PRICE : ℚ := 4400
def SEYCHELLES_BASE_PRICE : ℚ := 4500
def DEFAULT_BASE_PRICE : ℚ := 4500
def PRASLIN_EXTRA : ℚ := 400
def LENGTH_EXTRA : ℚ := 200
def COOK_PRICE : ℚ := 1400
def TURKEY_DISH_BASE : ℚ := 150
def SEYCHELLES_DISH_BASE : ℚ := 210
def DEFAULT_DISH_BASE : ℚ := 210
def MAX_DOUBLE_CABINS_FREE : ℤ := 4

/-- First binding of DOUBLE_CABIN_EXTRA (helpers.py line 20), shadowed
by the rebinding below before any use. -/
def DOUBLE_CABIN_EXTRA_line20 : ℚ := 200

/-- Effective binding of DOUBLE_CABIN_EXTRA (helpers.py line 354); this
is the value calculate_tourist_price reads at run time. -/
def DOUBLE_CABIN_EXTRA : ℚ := 180

def CATAMARAN_LENGTH_EXTRA : ℚ := 500
def SAILING_LENGTH_EXTRA : ℚ := 300

def TURKEY_NAMES : List String := ["turkey", "турция"]
def SEYCHELLES_NAMES : List String := ["seychelles", "сейшелы"]

/-! ## boats/helpers.py : calculate_final_price_with_discounts -/

/-- Charter record; only the commission field takes part in the price
computation.  Python truthiness of commission is modelled as being
nonzero. -/
structure Charter where
  commission : ℚ
  deriving DecidableEq

/-- Commission of an optional charter, zero when absent. -/
def commissionOf : Option Charter → ℚ
  | none => 0
  | some c => c.commission

/-- Embedding of helpers.calculate_final_price_with_discounts
(helpers.py lines 54-96).  Python float arithmetic is modelled over ℚ;
the falsy checks on base_price and on the discounts are equality with
zero. -/
def calculate_final_price_with_discounts (base_price d1 d2 : ℚ)
    (charter : Option Charter) : ℚ :=
  if base_price = 0 then 0
  else
    let p1 := if d1 ≠ 0 then base_price * (1 - d1 / 100) else base_price
    let p2 := if d2 ≠ 0 then p1 * (1 - d2 / 100) else p1
    match charter with
    | none => p2
    | some c =>
        if c.commission ≠ 0 then
          if d2 < c.commission then p2 * (1 - min 5 c.commission / 100)
          else p2
        else p2

/-- The extra conditional factor applied in step 3 of the calculator. -/
def extraFactor (d2 : ℚ) : Option Charter → ℚ
  | none => 1
  | some c =>
      if c.commission ≠ 0 ∧ d2 < c.commission then
        1 - min 5 c.commission / 100
      else 1

/-- Product form of the discount calculator: the two skip-if-zero
branches coincide with multiplying by 1, so the result is always the
plain product of the three factors. -/
lemma calculate_final_price_eq_prod (base_price d1 d2 : ℚ)
    (charter : Option Charter) :
    calculate_final_price_with_discounts base_price d1 d2 charter =
      base_price * (1 - d1 / 100) * (1 - d2 / 100) *
        extraFactor d2 charter := by
  unfold calculate_final_price_with_discounts extraFactor
  by_cases hb : base_price = 0
  · subst hb
    cases charter with
    | none => simp
    | some c => by_cases h1 : d1 = 0 <;> by_cases h2 : d2 = 0 <;> simp
  · simp only [hb, if_false]
    by_cases h1 : d1 = 0 <;> by_cases h2 : d2 = 0 <;>
      cases charter with
      | none => simp [h1, h2]
      | some c =>
          by_cases hc : c.commission = 0 <;> by_cases hlt : d2 < c.commission <;>
            simp [h1, h2, hc, hlt] <;> try ring

lemma extraFactor_nonneg (d2 : ℚ) (ch : Option Charter) :
    0 ≤ extraFactor d2 ch := by
  cases ch with
  | none => simp [extraFactor]
  | some c =>
      simp only [extraFactor]
      by_cases h : c.commission ≠ 0 ∧ d2 < c.commission
      · rw [if_pos h]
        have : min 5 c.commission ≤ 5 := min_le_left _ _
        linarith
      · rw [if_neg h]
        norm_num

lemma extraFactor_le_one (d2 : ℚ) (ch : Option Charter)
    (hC : 0 ≤ commissionOf ch) : extraFactor d2 ch ≤ 1 := by
  cases ch with
  | none => simp [extraFactor]
  | some c =>
      simp only [extraFactor]
      by_cases h : c.commission ≠ 0 ∧ d2 < c.commission
      · rw [if_pos h]
        have hc : 0 ≤ c.commission := hC
        have : 0 ≤ min 5 c.commission := le_min (by norm_num) hc
        linarith
      · rw [if_neg h]

lemma extraFactor_congr (d2 d2a : ℚ) (ch : Option Charter)
    (hside : d2 < commissionOf ch ↔ d2a < commissionOf ch) :
    extraFactor d2a ch = extraFactor d2 ch := by
  cases ch with
  | none => rfl
  | some c =>
      simp only [extraFactor]
      by_cases hc : c.commission = 0
      · simp [hc]
      · have hcf : commissionOf (some c) = c.commission := rfl
        rw [hcf] at hside
        by_cases hlt : d2 < c.commission
        · rw [if_pos ⟨hc, hside.mp hlt⟩, if_pos ⟨hc, hlt⟩]
        · rw [if_neg fun hcon => hlt (hside.mpr hcon.2),
              if_neg fun hcon => hlt hcon.2]

/-- C3 counterexample: with base price 100, first discount 0, charter
commission 10, the final price at additional discount 9 is strictly
below the final price at additional discount 10 — the price is NOT
monotonically non-increasing in the second discount, because raising it
to the commission threshold switches off the extra min(5, C) percent
step.  All side conditions of the claim (P > 0, discounts in [0,100],
commission nonnegative) hold at this input. -/
theorem final_price_d2_monotone_counterexample :
    (0 : ℚ) < 100 ∧ (0 : ℚ) ≤ 0 ∧ (0 : ℚ) ≤ 100 ∧ (0 : ℚ) ≤ 9 ∧
      (9 : ℚ) ≤ 100 ∧ (9 : ℚ) ≤ 10 ∧ (10 : ℚ) ≤ 100 ∧
      (0 : ℚ) ≤ commissionOf (some ⟨10⟩) ∧
      calculate_final_price_with_discounts 100 0 9 (some ⟨10⟩) <
        calculate_final_price_with_discounts 100 0 10 (some ⟨10⟩) := by
  refine ⟨by norm_num, by norm_num, by norm_num, by norm_num, by norm_num,
    by norm_num, by norm_num, by norm_num [commissionOf], ?_⟩
  norm_num [calculate_final_price_with_discounts]

/-- C3 (amended): for base price P > 0, discounts in [0, 100] and a
nonnegative charter commission, the final price is monotonically
non-increasing in the first discount, monotonically non-increasing in
the second discount as long as both compared values are on the same side
of the commission threshold, and never exceeds P. -/
theorem final_price_discounts_monotone_bounded
    (P d1 d1a d2 d2a : ℚ) (ch : Option Charter)
    (hP : 0 < P) (h1l : 0 ≤ d1) (h1u : d1 ≤ 100)
    (h1al : 0 ≤ d1a) (h1au : d1a ≤ 100)
    (h2l : 0 ≤ d2) (h2u : d2 ≤ 100) (h2al : 0 ≤ d2a) (h2au : d2a ≤ 100)
    (hC : 0 ≤ commissionOf ch) :
    (d1 ≤ d1a →
      calculate_final_price_with_discounts P d1a d2 ch ≤
        calculate_final_price_with_discounts P d1 d2 ch) ∧
    (d2 ≤ d2a → (d2 < commissionOf ch ↔ d2a < commissionOf ch) →
      calculate_final_price_with_discounts P d1 d2a ch ≤
        calculate_final_price_with_discounts P d1 d2 ch) ∧
    calculate_final_price_with_discounts P d1 d2 ch ≤ P := by
  have hE0 := extraFactor_nonneg d2 ch
  have hE1 := extraFactor_le_one d2 ch hC
  have hA0 : (0 : ℚ) ≤ 1 - d2 / 100 := by linarith
  have hB0 : (0 : ℚ) ≤ 1 - d1 / 100 := by linarith
  refine ⟨?_, ?_, ?_⟩
  · intro h
    rw [calculate_final_price_eq_prod, calculate_final_price_eq_prod]
    have hBB : 1 - d1a / 100 ≤ 1 - d1 / 100 := by linarith
    exact mul_le_mul_of_nonneg_right
      (mul_le_mul_of_nonneg_right
        (mul_le_mul_of_nonneg_left hBB hP.le) hA0) hE0
  · intro h hside
    rw [calculate_final_price_eq_prod, calculate_final_price_eq_prod,
        extraFactor_congr d2 d2a ch hside]
    have hAA : 1 - d2a / 100 ≤ 1 - d2 / 100 := by linarith
    exact mul_le_mul_of_nonneg_right
      (mul_le_mul_of_nonneg_left hAA (mul_nonneg hP.le hB0)) hE0
  · rw [calculate_final_price_eq_prod]
    have hB1 : 1 - d1 / 100 ≤ 1 := by linarith
    have hA1 : 1 - d2 / 100 ≤ 1 := by linarith
    have s1 : P * (1 - d1 / 100) ≤ P := by nlinarith
    have s10 : 0 ≤ P * (1 - d1 / 100) := mul_nonneg hP.le hB0
    have s2 : P * (1 - d1 / 100) * (1 - d2 / 100) ≤ P * (1 - d1 / 100) := by
      nlinarith
    have s20 : 0 ≤ P * (1 - d1 / 100) * (1 - d2 / 100) := mul_nonneg s10 hA0
    have s3 : P * (1 - d1 / 100) * (1 - d2 / 100) * extraFactor d2 ch ≤
        P * (1 - d1 / 100) * (1 - d2 / 100) := by nlinarith
    linarith

/-- C3 witness: the amended theorem instantiated at P = 100, first
discount 10 against 20, second discount 30 against 40, commission 20. -/
theorem final_price_discounts_monotone_bounded_witness :
    calculate_final_price_with_discounts 100 20 30 (some ⟨20⟩) ≤
      calculate_final_price_with_discounts 100 10 30 (some ⟨20⟩) ∧
    calculate_final_price_with_discounts 100 10 40 (some ⟨20⟩) ≤
      calculate_final_price_with_discounts 100 10 30 (some ⟨20⟩) ∧
    calculate_final_price_with_discounts 100 10 30 (some ⟨20⟩) ≤ 100 := by
  have h := final_price_discounts_monotone_bounded 100 10 20 30 40 (some ⟨20⟩)
    (by norm_num) (by norm_num) (by norm_num) (by norm_num) (by norm_num)
    (by norm_num) (by norm_num) (by norm_num) (by norm_num)
    (by norm_num [commissionOf])
  exact ⟨h.1 (by norm_num), h.2.1 (by norm_num) (by norm_num [commissionOf]),
    h.2.2⟩

/-- C4 (confirmed): with a nonnegative second discount, the extra
min(5, C) percent step is applied exactly when a charter is present and
the second discount is strictly below its commission; otherwise the
final price is exactly the two-discount product (skipping a factor whose
discount is zero coincides with multiplying by 1). -/
theorem final_price_extra_step_exact (P d1 d2 : ℚ) (ch : Option Charter)
    (hd2 : 0 ≤ d2) :
    ((ch = none ∨ commissionOf ch ≤ d2) →
      calculate_final_price_with_discounts P d1 d2 ch =
        P * (1 - d1 / 100) * (1 - d2 / 100)) ∧
    (∀ c, ch = some c → d2 < c.commission →
      calculate_final_price_with_discounts P d1 d2 ch =
        P * (1 - d1 / 100) * (1 - d2 / 100) *
          (1 - min 5 c.commission / 100)) := by
  constructor
  · intro h
    rw [calculate_final_price_eq_prod]
    have hone : extraFactor d2 ch = 1 := by
      cases ch with
      | none => rfl
      | some c =>
          have hle : c.commission ≤ d2 := by
            rcases h with h | h
            · exact absurd h (by simp)
            · exact h
          simp only [extraFactor]
          rw [if_neg fun hcon => absurd hcon.2 (not_lt.mpr hle)]
    rw [hone, mul_one]
  · intro c hc hlt
    subst hc
    rw [calculate_final_price_eq_prod]
    have hcne : c.commission ≠ 0 :=
      ne_of_gt (lt_of_le_of_lt hd2 hlt)
    simp only [extraFactor]
    rw [if_pos ⟨hcne, hlt⟩]

/-- C4 witness: with commission 20 the extra step is skipped at second
discount 30 and applied at second discount 10. -/
theorem final_price_extra_step_exact_witness :
    calculate_final_price_with_discounts 100 10 30 (some ⟨20⟩) =
      100 * (1 - 10 / 100) * (1 - 30 / 100) ∧
    calculate_final_price_with_discounts 100 10 10 (some ⟨20⟩) =
      100 * (1 - 10 / 100) * (1 - 10 / 100) *
        (1 - min 5 (20 : ℚ) / 100) := by
  constructor
  · exact (final_price_extra_step_exact 100 10 30 (some ⟨20⟩)
      (by norm_num)).1 (Or.inr (by norm_num [commissionOf]))
  · exact (final_price_extra_step_exact 100 10 10 (some ⟨20⟩)
      (by norm_num)).2 ⟨20⟩ rfl (by norm_num)

/-! ## boats/helpers.py : calculate_tourist_price (lines 361-454)

The boat_data dictionary fields read by the function become structure
fields; numeric fields use ℚ with 0 encoding a missing/falsy value,
exactly as float(x or 0) does.  The check-in/check-out strings are
modelled as already-parsed day numbers (the function only takes their
difference in days). -/

/-- Python str.lower() per character, for the character ranges the data
uses (ASCII A-Z and Cyrillic А-Я, Ё). -/
def pyCharLower (c : Char) : Char :=
  if 65 ≤ c.toNat ∧ c.toNat ≤ 90 then Char.ofNat (c.toNat + 32)
  else if 0x410 ≤ c.toNat ∧ c.toNat ≤ 0x42F then Char.ofNat (c.toNat + 32)
  else if c.toNat = 0x401 then Char.ofNat 0x451
  else c

/-- Python str.lower() over the string's characters. -/
def pyLower (s : String) : String := ⟨s.data.map pyCharLower⟩

structure TouristParams where
  length : ℚ
  max_sleeps : ℤ
  berths : ℤ
  double_cabins : ℤ
  deriving DecidableEq

structure TouristBoatData where
  totalPrice : ℚ
  price : ℚ
  discount : ℚ
  country : String
  category : String
  marina : String
  parameters : TouristParams
  deriving DecidableEq

structure TouristPriceResult where
  total_price : ℚ
  original_price : ℚ
  discount : ℚ
  nights : ℤ
  deriving DecidableEq

/-- Base price: float(boat_data.get('totalPrice') or boat_data.get('price') or 0). -/
def tourist_base (bd : TouristBoatData) : ℚ :=
  if bd.totalPrice ≠ 0 then bd.totalPrice else bd.price

/-- Effective sleeps: int(parameters.get('max_sleeps', 0) or parameters.get('berths', 0) or 0). -/
def tourist_effective_sleeps (p : TouristParams) : ℤ :=
  if p.max_sleeps ≠ 0 then p.max_sleeps else p.berths

/-- Step 1, deposit insurance: total += max(total * INSURANCE_RATE, INSURANCE_MIN). -/
def tourist_after_insurance (bd : TouristBoatData) : ℚ :=
  tourist_base bd + max (tourist_base bd * INSURANCE_RATE) INSURANCE_MIN

/-- Step 2, Seychelles extra double-cabin surcharge. -/
def tourist_after_cabins (bd : TouristBoatData) : ℚ :=
  if pyLower bd.country ∈ SEYCHELLES_NAMES ∧
      bd.parameters.double_cabins > MAX_DOUBLE_CABINS_FREE then
    tourist_after_insurance bd +
      ((bd.parameters.double_cabins - MAX_DOUBLE_CABINS_FREE : ℤ) : ℚ) *
        DOUBLE_CABIN_EXTRA
  else tourist_after_insurance bd

/-- Country-dependent flat base fee (step 3). -/
def tourist_country_base (country : String) : ℚ :=
  if country ∈ TURKEY_NAMES then TURKEY_BASE_PRICE
  else if country ∈ SEYCHELLES_NAMES then SEYCHELLES_BASE_PRICE
  else DEFAULT_BASE_PRICE

/-- Country-dependent per-guest meal base chosen in step 3. -/
def tourist_dish_base (country : String) : ℚ :=
  if country ∈ TURKEY_NAMES then TURKEY_DISH_BASE
  else if country ∈ SEYCHELLES_NAMES then SEYCHELLES_DISH_BASE
  else DEFAULT_DISH_BASE

/-- Step 3, country base fee. -/
def tourist_after_country (bd : TouristBoatData) : ℚ :=
  tourist_after_cabins bd + tourist_country_base (pyLower bd.country)

/-- Step 4, Praslin marina surcharge. -/
def tourist_after_marina (bd : TouristBoatData) : ℚ :=
  if pyLower bd.marina = "praslin marina" then
    tourist_after_country bd + PRASLIN_EXTRA
  else tourist_after_country bd

/-- Step 5, length surcharge above 14.2 m. -/
def tourist_after_length (bd : TouristBoatData) : ℚ :=
  if bd.parameters.length > 71 / 5 then tourist_after_marina bd + LENGTH_EXTRA
  else tourist_after_marina bd

/-- Step 6, Turkey category-specific surcharge above 13.8 m. -/
def tourist_after_turkey_length (bd : TouristBoatData) : ℚ :=
  if bd.parameters.length > 69 / 5 ∧ pyLower bd.country ∈ TURKEY_NAMES then
    if bd.category = "Катамаран" then
      tourist_after_length bd + CATAMARAN_LENGTH_EXTRA
    else if bd.category = "Парусная Яхта" then
      tourist_after_length bd + SAILING_LENGTH_EXTRA
    else tourist_after_length bd
  else tourist_after_length bd

/-- Step 7, catering. -/
def tourist_after_dish (bd : TouristBoatData) (dish : Bool) : ℚ :=
  if dish ∧ tourist_effective_sleeps bd.parameters > 0 then
    tourist_after_turkey_length bd +
      ((tourist_effective_sleeps bd.parameters - 2 : ℤ) : ℚ) *
        tourist_dish_base (pyLower bd.country) + COOK_PRICE
  else tourist_after_turkey_length bd

/-- Step 8, caller-supplied adjustment. -/
def tourist_after_discount (bd : TouristBoatData) (dish : Bool)
    (discount : ℚ) : ℚ :=
  if discount ≠ 0 then tourist_after_dish bd dish + discount
  else tourist_after_dish bd dish

/-- Python round(x, 2), modelled as rounding to the nearest multiple of
1/100. -/
def round2 (q : ℚ) : ℚ := ((round (q * 100) : ℤ) : ℚ) / 100

/-- Night count from optional check-in/check-out day numbers. -/
def tourist_nights (check_in check_out : Option ℤ) : ℤ :=
  match check_in, check_out with
  | some ci, some co => max (co - ci) 1
  | _, _ => 1

/-- Embedding of helpers.calculate_tourist_price (helpers.py lines
361-454), as the chain of the additive steps above. -/
def calculate_tourist_price (bd : TouristBoatData)
    (check_in check_out : Option ℤ) (dish : Bool) (discount : ℚ) :
    TouristPriceResult :=
  if tourist_base bd = 0 then
    { total_price := 0, original_price := 0, discount := 0, nights := 1 }
  else
    { total_price := round2 (tourist_after_discount bd dish discount)
      original_price := round2 bd.price
      discount := bd.discount
      nights := tourist_nights check_in check_out }

/-- C1 (confirmed): the Turkey catamaran scenario — base 2000, length
15 m, category Катамаран, 6 sleeps, catering on, no caller adjustment —
computes a total price of exactly 9500 (2000 + 400 insurance + 4400
Turkey base + 200 length surcharge + 500 Turkey catamaran surcharge +
2000 catering). -/
theorem tourist_price_turkey_catamaran_9500 :
    (calculate_tourist_price
      { totalPrice := 2000, price := 0, discount := 0, country := "Turkey",
        category := "Катамаран", marina := "",
        parameters :=
          { length := 15, max_sleeps := 6, berths := 0, double_cabins := 2 } }
      none none true 0).total_price = 9500 := by
  have ht : pyLower "Turkey" = "turkey" := by decide
  have hm : ¬ pyLower "" = "praslin marina" := by decide
  norm_num [calculate_tourist_price, tourist_base, tourist_after_discount,
    tourist_after_dish, tourist_after_turkey_length, tourist_after_length,
    tourist_after_marina, tourist_after_country, tourist_after_cabins,
    tourist_after_insurance, tourist_effective_sleeps, tourist_country_base,
    tourist_dish_base, round2, round_eq, max_def, ht, hm,
    INSURANCE_RATE, INSURANCE_MIN, TURKEY_BASE_PRICE, SEYCHELLES_BASE_PRICE,
    DEFAULT_BASE_PRICE, PRASLIN_EXTRA, LENGTH_EXTRA, COOK_PRICE,
    TURKEY_DISH_BASE, SEYCHELLES_DISH_BASE, DEFAULT_DISH_BASE,
    MAX_DOUBLE_CABINS_FREE, DOUBLE_CABIN_EXTRA, CATAMARAN_LENGTH_EXTRA,
    SAILING_LENGTH_EXTRA, TURKEY_NAMES, SEYCHELLES_NAMES]

/-- C2 counterexample: for a Seychelles boat with 6 double cabins the
per-extra-cabin surcharge the code adds is 2 * 180 = 360 (the effective
rebinding of DOUBLE_CABIN_EXTRA at helpers.py line 354), not
2 * 200 = 400 as the claim states. -/
theorem seychelles_cabin_surcharge_counterexample :
    tourist_after_cabins
      { totalPrice := 4000, price := 0, discount := 0,
        country := "Seychelles", category := "", marina := "",
        parameters :=
          { length := 0, max_sleeps := 0, berths := 0, double_cabins := 6 } } =
      tourist_after_insurance
        { totalPrice := 4000, price := 0, discount := 0,
          country := "Seychelles", category := "", marina := "",
          parameters :=
            { length := 0, max_sleeps := 0, berths := 0,
              double_cabins := 6 } } + 360 ∧
    ¬ tourist_after_cabins
        { totalPrice := 4000, price := 0, discount := 0,
          country := "Seychelles", category := "", marina := "",
          parameters :=
            { length := 0, max_sleeps := 0, berths := 0,
              double_cabins := 6 } } =
      tourist_after_insurance
        { totalPrice := 4000, price := 0, discount := 0,
          country := "Seychelles", category := "", marina := "",
          parameters :=
            { length := 0, max_sleeps := 0, berths := 0,
              double_cabins := 6 } } + 400 := by
  have hs : pyLower "Seychelles" = "seychelles" := by decide
  constructor <;>
    norm_num [tourist_after_cabins, tourist_after_insurance, tourist_base,
      hs, SEYCHELLES_NAMES, MAX_DOUBLE_CABINS_FREE, DOUBLE_CABIN_EXTRA,
      INSURANCE_RATE, INSURANCE_MIN, max_def]

/-- C2 (amended): for every Seychelles boat with 6 double cabins (free
allowance 4) the per-extra-cabin surcharge added is exactly
2 * 180 = 360, and it is added before the Seychelles country base fee of
4500. -/
theorem seychelles_cabin_surcharge_amended (bd : TouristBoatData)
    (hc : pyLower bd.country ∈ SEYCHELLES_NAMES)
    (hd : bd.parameters.double_cabins = 6) :
    tourist_after_cabins bd = tourist_after_insurance bd + 360 ∧
    tourist_after_country bd = tourist_after_cabins bd + 4500 := by
  constructor
  · rw [tourist_after_cabins, if_pos ⟨hc, by rw [hd]; norm_num [MAX_DOUBLE_CABINS_FREE]⟩,
        hd]
    norm_num [MAX_DOUBLE_CABINS_FREE, DOUBLE_CABIN_EXTRA]
  · have hnt : pyLower bd.country ∉ TURKEY_NAMES := by
      simp only [SEYCHELLES_NAMES, List.mem_cons, List.not_mem_nil,
        or_false] at hc
      rcases hc with h | h <;> simp [TURKEY_NAMES, h]
    rw [tourist_after_country, tourist_country_base, if_neg hnt, if_pos hc]
    norm_num [SEYCHELLES_BASE_PRICE]

/-- C2 witness: the amended statement at a concrete Seychelles boat. -/
theorem seychelles_cabin_surcharge_amended_witness :
    tourist_after_cabins
      { totalPrice := 4000, price := 0, discount := 0,
        country := "Seychelles", category := "", marina := "",
        parameters :=
          { length := 0, max_sleeps := 0, berths := 0, double_cabins := 6 } } =
      tourist_after_insurance
        { totalPrice := 4000, price := 0, discount := 0,
          country := "Seychelles", category := "", marina := "",
          parameters :=
            { length := 0, max_sleeps := 0, berths := 0,
              double_cabins := 6 } } + 360 ∧
    tourist_after_country
      { totalPrice := 4000, price := 0, discount := 0,
        country := "Seychelles", category := "", marina := "",
        parameters :=
          { length := 0, max_sleeps := 0, berths := 0, double_cabins := 6 } } =
      tourist_after_cabins
        { totalPrice := 4000, price := 0, discount := 0,
          country := "Seychelles", category := "", marina := "",
          parameters :=
            { length := 0, max_sleeps := 0, berths := 0,
              double_cabins := 6 } } + 4500 :=
  seychelles_cabin_surcharge_amended _ (by decide) (by decide)

/-! ## boats/helpers.py : is_cache_fresh (lines 181-196)

Timestamps are modelled in seconds, with the current time passed
explicitly; timedelta(hours=h) becomes h * 3600 seconds. -/

structure CachedParsedBoat where
  last_parsed : ℚ
  deriving DecidableEq

/-- Embedding of helpers.is_cache_fresh: a missing record is never
fresh, otherwise the record is fresh iff its age is strictly below the
maximum age. -/
def is_cache_fresh (parsed_boat : Option CachedParsedBoat) (now : ℚ)
    (max_age_hours : ℚ) : Bool :=
  match parsed_boat with
  | none => false
  | some b => decide (now - b.last_parsed < max_age_hours * 3600)

/-- C5 (confirmed): the freshness check returns true iff now minus the
last-scrape timestamp is strictly below max_age; it is true immediately
after the timestamp is set to now, and false once more than 24 hours
have elapsed. -/
theorem cache_freshness_iff (b : CachedParsedBoat) (now later maxAge : ℚ) :
    (is_cache_fresh (some b) now maxAge = true ↔
      now - b.last_parsed < maxAge * 3600) ∧
    is_cache_fresh (some ⟨now⟩) now 24 = true ∧
    (later - b.last_parsed > 24 * 3600 →
      is_cache_fresh (some b) later 24 = false) := by
  refine ⟨by simp [is_cache_fresh], ?_, ?_⟩
  · simp only [is_cache_fresh, decide_eq_true_eq]
    norm_num
  · intro h
    simp only [is_cache_fresh, decide_eq_false_iff_not, not_lt]
    linarith

/-- C5 witness: a record last scraped at time 0 is stale at time
100000 s (more than 24 h later). -/
theorem cache_freshness_iff_witness :
    is_cache_fresh (some ⟨0⟩) 100000 24 = false :=
  (cache_freshness_iff ⟨0⟩ 0 100000 24).2.2 (by norm_num)

/-! ## boats/parser.py : gallery replacement (lines 1458-1465)

The BoatGallery table is modelled as a list of rows; the replacement
block first deletes every row of the boat and then creates one row per
downloaded picture with order counting from 1, exactly as the
enumerate(downloaded_pics, 1) loop does. -/

structure BoatGalleryRow where
  boat : ℕ
  cdn_url : String
  order : ℕ
  deriving DecidableEq

/-- Rows created by the enumerate(downloaded_pics, 1) loop, starting at
a given order index. -/
def gallery_rows_from (boat : ℕ) : ℕ → List String → List BoatGalleryRow
  | _, [] => []
  | idx, pic :: rest =>
      { boat := boat, cdn_url := pic, order := idx } ::
        gallery_rows_from boat (idx + 1) rest

/-- Embedding of the gallery replacement block: delete all rows of the
boat, then append the freshly enumerated rows. -/
def replace_gallery (db : List BoatGalleryRow) (boat : ℕ)
    (pics : List String) : List BoatGalleryRow :=
  db.filter (fun r => r.boat != boat) ++ gallery_rows_from boat 1 pics

lemma gallery_rows_from_filter_self (b : ℕ) :
    ∀ (n : ℕ) (pics : List String),
      (gallery_rows_from b n pics).filter (fun r => r.boat == b) =
        gallery_rows_from b n pics := by
  intro n pics
  induction pics generalizing n with
  | nil => rfl
  | cons p ps ih => simp [gallery_rows_from, List.filter_cons, ih]

lemma filter_bne_filter_beq (db : List BoatGalleryRow) (b : ℕ) :
    (db.filter (fun r => r.boat != b)).filter (fun r => r.boat == b) = [] := by
  induction db with
  | nil => rfl
  | cons r rest ih =>
      by_cases h : r.boat = b
      · simp [List.filter_cons, h, ih]
      · simp [List.filter_cons, h, ih]

lemma gallery_rows_from_map_order (b : ℕ) :
    ∀ (n : ℕ) (pics : List String),
      (gallery_rows_from b n pics).map (fun r => r.order) =
        List.range' n pics.length := by
  intro n pics
  induction pics generalizing n with
  | nil => rfl
  | cons p ps ih => simp [gallery_rows_from, List.range', ih]

lemma gallery_rows_from_map_url (b : ℕ) :
    ∀ (n : ℕ) (pics : List String),
      (gallery_rows_from b n pics).map (fun r => r.cdn_url) = pics := by
  intro n pics
  induction pics generalizing n with
  | nil => rfl
  | cons p ps ih => simp [gallery_rows_from, ih]

/-- C8 (confirmed): after a gallery replacement with N downloaded
pictures, the boat's rows are exactly N, their order values are the
dense sequence 1..N, and their URLs are the pictures in order —
regardless of how many rows the boat had before. -/
theorem gallery_replacement_dense (db : List BoatGalleryRow) (b : ℕ)
    (pics : List String) :
    ((replace_gallery db b pics).filter (fun r => r.boat == b)).length =
      pics.length ∧
    ((replace_gallery db b pics).filter (fun r => r.boat == b)).map
        (fun r => r.order) = List.range' 1 pics.length ∧
    ((replace_gallery db b pics).filter (fun r => r.boat == b)).map
        (fun r => r.cdn_url) = pics := by
  have hsplit : (replace_gallery db b pics).filter (fun r => r.boat == b) =
      gallery_rows_from b 1 pics := by
    rw [replace_gallery, List.filter_append, filter_bne_filter_beq,
      gallery_rows_from_filter_self, List.nil_append]
  refine ⟨?_, ?_, ?_⟩
  · rw [hsplit]
    have := congrArg List.length (gallery_rows_from_map_url b 1 pics)
    simpa using this
  · rw [hsplit, gallery_rows_from_map_order]
  · rw [hsplit, gallery_rows_from_map_url]

/-! ## boats/parser.py : fetch_page (lines 306-388)

The per-attempt network outcome (response status plus body, or one of
the caught exception kinds) is an explicit input list, one entry per
attempt.  The mutable header dict is reduced to the only field the loop
mutates (the Referer entry), and the fixed 10-second sleep performed on
a 429 status is recorded in the state; the randomized 2-5 s inter-retry
delay has no observable effect on the result and is not modelled. -/

inductive FetchOutcome where
  | response (code : ℕ) (text : String)
  | timeout
  | connError
  | reqError
  | otherError
  deriving DecidableEq

structure FetchState where
  referer : Bool
  sleeps : List ℕ
  deriving DecidableEq

/-- One iteration of the retry loop: 200 returns the body; 403 just
retries; 405 sets the Referer header and retries; 429 sleeps 10 s and
retries; any other status raises in raise_for_status and the exception
is caught, continuing the loop; the caught exception kinds also simply
continue. -/
def fetch_attempt (o : FetchOutcome) (st : FetchState) :
    Option String × FetchState :=
  match o with
  | .response code text =>
      if code = 200 then (some text, st)
      else if code = 403 then (none, st)
      else if code = 405 then (none, { st with referer := true })
      else if code = 429 then (none, { st with sleeps := st.sleeps ++ [10] })
      else (none, st)
  | _ => (none, st)

def fetch_go : List FetchOutcome → FetchState → Option String × FetchState
  | [], st => (none, st)
  | o :: rest, st =>
      match fetch_attempt o st with
      | (some text, stNew) => (some text, stNew)
      | (none, stNew) => fetch_go rest stNew

def MAX_RETRIES : ℕ := 3

/-- Embedding of parser.fetch_page: at most MAX_RETRIES attempts are
consumed, starting with no Referer header and no recorded backoffs;
falling out of the loop returns the no-data value None. -/
def fetch_page (outcomes : List FetchOutcome) :
    Option String × FetchState :=
  fetch_go (outcomes.take MAX_RETRIES) { referer := false, sleeps := [] }

/-- Successful outcome predicate: an HTTP response with status 200. -/
def isHttp200 : FetchOutcome → Bool
  | .response code _ => code == 200
  | _ => false

lemma fetch_attempt_fst_none (o : FetchOutcome) (st : FetchState)
    (h : isHttp200 o = false) : (fetch_attempt o st).1 = none := by
  cases o with
  | response code text =>
      have hne : code ≠ 200 := by simpa [isHttp200] using h
      simp [fetch_attempt, hne, apply_ite Prod.fst]
  | timeout => rfl
  | connError => rfl
  | reqError => rfl
  | otherError => rfl

lemma fetch_go_fst_none (l : List FetchOutcome) :
    ∀ st : FetchState, (∀ o ∈ l, isHttp200 o = false) →
      (fetch_go l st).1 = none := by
  induction l with
  | nil => intro st _; rfl
  | cons o rest ih =>
      intro st h
      have h1 : (fetch_attempt o st).1 = none :=
        fetch_attempt_fst_none o st (h o (List.mem_cons_self o rest))
      rcases hh : fetch_attempt o st with ⟨r, st2⟩
      rw [hh] at h1
      simp only at h1
      subst h1
      simp only [fetch_go, hh]
      exact ih st2 fun oo hoo => h oo (List.mem_cons_of_mem o hoo)

/-- C6 counterexample: a run of three 403 responses never sets the
Referer header (the claim says a 403 adds Referer before the retry; the
code only does that on a 405), and returns the no-data value. -/
theorem fetch_page_403_referer_counterexample :
    fetch_page
        [.response 403 "a", .response 403 "b", .response 403 "c"] =
      (none, { referer := false, sleeps := [] }) ∧
    (fetch_attempt (.response 403 "x")
        { referer := false, sleeps := [] }).2.referer = false ∧
    (fetch_attempt (.response 405 "x")
        { referer := false, sleeps := [] }).2.referer = true := by
  refine ⟨rfl, rfl, rfl⟩

/-- C6 (amended): the page fetch client consumes at most 3 attempts; a
403 response retries with the state unchanged, a 405 response sets the
Referer header before the retry, a 429 response records the fixed 10 s
backoff; and when no attempt yields a 200 response the client returns
the no-data value instead of raising. -/
theorem fetch_page_retry_behavior (outs : List FetchOutcome) (t : String)
    (st : FetchState) :
    ((∀ o ∈ outs, isHttp200 o = false) → (fetch_page outs).1 = none) ∧
    fetch_page outs = fetch_page (outs.take MAX_RETRIES) ∧
    fetch_attempt (.response 403 t) st = (none, st) ∧
    fetch_attempt (.response 405 t) st =
      (none, { st with referer := true }) ∧
    fetch_attempt (.response 429 t) st =
      (none, { st with sleeps := st.sleeps ++ [10] }) := by
  refine ⟨?_, ?_, rfl, rfl, rfl⟩
  · intro hall
    exact fetch_go_fst_none _ _ fun o ho =>
      hall o (List.mem_of_mem_take ho)
  · simp [fetch_page, List.take_take]

/-- C6 witness: a 500, a timeout and a 404 exhaust the retries and the
client returns the no-data value. -/
theorem fetch_page_retry_behavior_witness :
    (fetch_page [.response 500 "e", .timeout, .response 404 "n"]).1 =
      none :=
  (fetch_page_retry_behavior
      [.response 500 "e", .timeout, .response 404 "n"] "t"
      { referer := false, sleeps := [] }).1 (by decide)

/-! ## boats/boataround_api.py : BoataroundAPI.search (lines 128-380)

The params dict is modelled as a record whose optional entries are
present exactly when the corresponding Python argument is truthy (a
non-empty string).  The network is a deterministic oracle from the sent
parameters to a status code; the body-parsing of a 200 response is not
part of the retry claims and is abstracted into one outcome
constructor.  The inner timeout retry loop always receives a response
here (it only repeats the identical request on Timeout or
ConnectionError). -/

structure SearchParams where
  limit : ℕ
  page : ℕ
  checkIn : Option String
  checkOut : Option String
  destinations : Option String
  category : Option String
  cabins : Option String
  year : Option String
  price : Option String
  sort : Option String
  lang : Option String
  deriving DecidableEq

/-- Python truthiness of an optional string argument: present and
non-empty. -/
def optTruthy (o : Option String) : Option String :=
  match o with
  | some s => if s = "" then none else some s
  | none => none

/-- Truthiness for the plain-string arguments (sort, lang). -/
def strTruthy (s : String) : Option String :=
  if s = "" then none else some s

/-- The params dict built at the top of BoataroundAPI.search: limit and
page always, every other key only when its argument is truthy. -/
def build_search_params
    (check_in check_out destination category cabins year price :
      Option String) (page limit : ℕ) (sort lang : String) : SearchParams :=
  { limit := limit
    page := page
    checkIn := optTruthy check_in
    checkOut := optTruthy check_out
    destinations := optTruthy destination
    category := optTruthy category
    cabins := optTruthy cabins
    year := optTruthy year
    price := optTruthy price
    sort := strTruthy sort
    lang := strTruthy lang }

inductive SearchOutcome where
  | parsedOk
  | noContent
  | emptyFallback
  | emptyAfter500
  deriving DecidableEq

/-- Classification of the response handling after the 500-check: 200 is
parsed, 204 returns the no-content empty result, anything else falls
through to the final empty-result return. -/
def classify_status (code : ℕ) : SearchOutcome :=
  if code = 200 then .parsedOk
  else if code = 204 then .noContent
  else .emptyFallback

/-- Embedding of the 500-handling of BoataroundAPI.search: on a 500
response, when sort is truthy and at least one of cabins/year/price is
truthy, the sort key is popped and the request is sent exactly once
more; otherwise the hardcoded empty result is returned with no retry.
The second component records every request sent. -/
def boataround_search
    (check_in check_out destination category cabins year price :
      Option String) (page limit : ℕ) (sort lang : String)
    (respond : SearchParams → ℕ) : SearchOutcome × List SearchParams :=
  let p0 := build_search_params check_in check_out destination category
    cabins year price page limit sort lang
  let s1 := respond p0
  if s1 = 500 then
    if sort ≠ "" ∧ (optTruthy cabins ≠ none ∨ optTruthy year ≠ none ∨
        optTruthy price ≠ none) then
      let p1 := { p0 with sort := none }
      (classify_status (respond p1), [p0, p1])
    else (.emptyAfter500, [p0])
  else (classify_status s1, [p0])

/-- C7 (confirmed): when the first response is a 500, a truthy sort
parameter combined with at least one truthy cabins/year/price filter
triggers exactly one retry of the same request with the sort key
removed, while a 500 with no sort or no filters triggers no retry and
yields the hardcoded empty result. -/
theorem search_500_sort_retry
    (check_in check_out destination category cabins year price :
      Option String) (page limit : ℕ) (sort lang : String)
    (respond : SearchParams → ℕ)
    (h500 : respond (build_search_params check_in check_out destination
      category cabins year price page limit sort lang) = 500) :
    (sort ≠ "" →
      (optTruthy cabins ≠ none ∨ optTruthy year ≠ none ∨
        optTruthy price ≠ none) →
      boataround_search check_in check_out destination category cabins
          year price page limit sort lang respond =
        (classify_status (respond
          { build_search_params check_in check_out destination category
              cabins year price page limit sort lang with sort := none }),
         [build_search_params check_in check_out destination category
            cabins year price page limit sort lang,
          { build_search_params check_in check_out destination category
              cabins year price page limit sort lang with sort := none }])) ∧
    ((sort = "" ∨ (optTruthy cabins = none ∧ optTruthy year = none ∧
        optTruthy price = none)) →
      boataround_search check_in check_out destination category cabins
          year price page limit sort lang respond =
        (.emptyAfter500,
         [build_search_params check_in check_out destination category
            cabins year price page limit sort lang])) := by
  constructor
  · intro hs hf
    simp only [boataround_search]
    rw [if_pos h500, if_pos ⟨hs, hf⟩]
  · intro hno
    simp only [boataround_search]
    rw [if_pos h500, if_neg]
    rintro ⟨hs, hf⟩
    rcases hno with h | ⟨hc, hy, hp⟩
    · exact hs h
    · rcases hf with h | h | h
      · exact h hc
      · exact h hy
      · exact h hp

/-- C7 witness: with cabins set, year and price unset, sort set and a
server that always answers 500, the search sends exactly the original
request followed by one retry with sort removed. -/
theorem search_500_sort_retry_witness :
    boataround_search none none none none (some "2") none none 1 18
        "rank" "en_EN" (fun _ => 500) =
      (classify_status 500,
       [build_search_params none none none none (some "2") none none 1 18
          "rank" "en_EN",
        { build_search_params none none none none (some "2") none none 1
            18 "rank" "en_EN" with sort := none }]) :=
  (search_500_sort_retry none none none none (some "2") none none 1 18
      "rank" "en_EN" (fun _ => 500) rfl).1 (by decide) (by decide)

/-! ## boats/parser.py : download_and_save_image (lines 79-157)

The filesystem and object store become an explicit state: the set of S3
keys present, the set of locally saved paths, and a download counter.
Key extraction reimplements the strip('/')/split('/')/24-hex scan of the
source; the best-effort S3 upload outcome is the uploadOk argument. -/

/-- Python str.strip('/'). -/
def stripSlashes (s : String) : String :=
  ⟨((s.data.dropWhile (fun c => c == '/')).reverse.dropWhile
      (fun c => c == '/')).reverse⟩

/-- Python str.split('/') over a character list. -/
def splitSlash : List Char → List Char → List (List Char)
  | [], acc => [acc.reverse]
  | c :: rest, acc =>
      if c == '/' then acc.reverse :: splitSlash rest []
      else splitSlash rest (c :: acc)

/-- The 24-hex MongoDB ObjectId test from the boat_id scan. -/
def isHex24 (part : List Char) : Bool :=
  part.length == 24 &&
    part.all fun c =>
      ("0123456789abcdef".data).contains (pyCharLower c)

/-- Extraction of (boat_id, filename) from an image path: the last path
segment is the filename, the first 24-hex segment is the boat id; both
must be non-falsy and there must be at least two segments. -/
def extract_image_key (image_path : String) :
    Option (String × String) :=
  let parts := splitSlash (stripSlashes image_path).data []
  if parts.length ≥ 2 then
    let filename := (parts.getLast?).getD []
    match parts.find? isHex24 with
    | some bid =>
        if filename.isEmpty then none else some (⟨bid⟩, ⟨filename⟩)
    | none => none
  else none

structure ImgState where
  s3 : List String
  localFiles : List String
  downloads : ℕ
  deriving DecidableEq

/-- Embedding of parser.download_and_save_image: derive the key, return
the deterministic CDN URL immediately when the S3 probe or the local
file check succeeds, otherwise download (counted), save locally and
best-effort upload. -/
def download_and_save_image (st : ImgState) (uploadOk : Bool)
    (image_path : String) : Option String × ImgState :=
  match extract_image_key image_path with
  | none => (none, st)
  | some (bid, fn) =>
      let s3_key := bid ++ "/" ++ fn
      let cdn_url := "https://cdn2.prvms.ru/yachts/" ++ bid ++ "/" ++ fn
      if st.s3.contains s3_key then (some cdn_url, st)
      else if st.localFiles.contains image_path then (some cdn_url, st)
      else
        let st1 := { st with downloads := st.downloads + 1,
                             localFiles := image_path :: st.localFiles }
        let st2 := if uploadOk then { st1 with s3 := s3_key :: st1.s3 }
                   else st1
        (some cdn_url, st2)

lemma download_skip_when_in_s3 (st : ImgState) (ub : Bool)
    (image_path bid fn : String)
    (hk : extract_image_key image_path = some (bid, fn))
    (h : st.s3.contains (bid ++ "/" ++ fn) = true) :
    download_and_save_image st ub image_path =
      (some ("https://cdn2.prvms.ru/yachts/" ++ bid ++ "/" ++ fn), st) := by
  simp only [download_and_save_image, hk]
  rw [if_pos h]

lemma download_downloads_le (st : ImgState) (ub : Bool)
    (image_path : String) :
    (download_and_save_image st ub image_path).2.downloads ≤
      st.downloads + 1 := by
  unfold download_and_save_image
  cases hk : extract_image_key image_path with
  | none => exact Nat.le_succ _
  | some kv =>
      obtain ⟨bid, fn⟩ := kv
      simp only
      split
      · exact Nat.le_succ _
      · split
        · exact Nat.le_succ _
        · cases ub <;> simp

/-- C9 (confirmed): when a stable key can be derived from the path, a
positive S3 existence probe makes the pipeline return the computed CDN
URL with the state untouched (no download, no upload); consequently two
calls on the same path, where the store reports existence on the second
call, perform at most one download in total. -/
theorem image_pipeline_skip_download (st : ImgState) (ub ub2 : Bool)
    (image_path bid fn : String)
    (hk : extract_image_key image_path = some (bid, fn)) :
    (st.s3.contains (bid ++ "/" ++ fn) = true →
      download_and_save_image st ub image_path =
        (some ("https://cdn2.prvms.ru/yachts/" ++ bid ++ "/" ++ fn),
         st)) ∧
    ((download_and_save_image st ub image_path).2.s3.contains
        (bid ++ "/" ++ fn) = true →
      (download_and_save_image
          (download_and_save_image st ub image_path).2 ub2
          image_path).2.downloads ≤ st.downloads + 1) := by
  constructor
  · intro h
    exact download_skip_when_in_s3 st ub image_path bid fn hk h
  · intro h2
    have hskip := download_skip_when_in_s3
      (download_and_save_image st ub image_path).2 ub2 image_path bid fn
      hk h2
    rw [hskip]
    exact download_downloads_le st ub image_path

/-- C9 witness: with the key already in the store, the call returns the
CDN URL and leaves the state (and download count) unchanged. -/
theorem image_pipeline_skip_download_witness :
    download_and_save_image
        ⟨["0123456789abcdef01234567/file.jpg"], [], 0⟩ true
        "boats/0123456789abcdef01234567/file.jpg" =
      (some "https://cdn2.prvms.ru/yachts/0123456789abcdef01234567/file.jpg",
       ⟨["0123456789abcdef01234567/file.jpg"], [], 0⟩) :=
  ((image_pipeline_skip_download
      ⟨["0123456789abcdef01234567/file.jpg"], [], 0⟩ true true
      "boats/0123456789abcdef01234567/file.jpg"
      "0123456789abcdef01234567" "file.jpg" (by decide)).1
    (by decide)).trans (by decide)

/-! ## boats/parser.py : add_currency_param (lines 46-72)

The URL query string is modelled as the ordered list of its decoded
key/value pairs; parse_qs with keep_blank_values groups values under the
key's first occurrence, the dict comprehension keeps each key's first
value, dict assignment of the currency key replaces the value in place
or appends the key at the end, and urlencode emits the pairs in dict
(first-occurrence) order. -/

/-- The dict built by parse_qs + first-value flattening, written with an
accumulator of keys already seen. -/
def flatParamsAux (seen : List String) :
    List (String × String) → List (String × String)
  | [] => []
  | (k, v) :: rest =>
      if k ∈ seen then flatParamsAux seen rest
      else (k, v) :: flatParamsAux (k :: seen) rest

def flatParams (q : List (String × String)) : List (String × String) :=
  flatParamsAux [] q

/-- Python dict assignment d[k] = v on an association list: replace in
place when the key is present, else append. -/
def setParam (q : List (String × String)) (k v : String) :
    List (String × String) :=
  if q.any (fun p => p.1 == k) then
    q.map (fun p => if p.1 == k then (k, v) else p)
  else q ++ [(k, v)]

/-- Embedding of parser.add_currency_param on the query pair list. -/
def add_currency_param (q : List (String × String)) (currency : String) :
    List (String × String) :=
  setParam (flatParams q) "currency" currency

/-- First value of a key in a query pair list (what parse_qs exposes as
v[0]). -/
def getFirst (q : List (String × String)) (k : String) : Option String :=
  (q.find? (fun p => p.1 == k)).map Prod.snd

lemma getFirst_cons (k1 v1 : String) (rest : List (String × String))
    (k : String) :
    getFirst ((k1, v1) :: rest) k =
      if k1 = k then some v1 else getFirst rest k := by
  unfold getFirst
  by_cases h : k1 = k
  · rw [List.find?_cons_of_pos _ (by simpa using h), if_pos h]
    rfl
  · rw [List.find?_cons_of_neg _ (by simpa using h), if_neg h]

lemma getFirst_flatParamsAux (q : List (String × String)) :
    ∀ (seen : List String) (k : String),
      getFirst (flatParamsAux seen q) k =
        if k ∈ seen then none else getFirst q k := by
  induction q with
  | nil => intro seen k; simp [flatParamsAux, getFirst]
  | cons p rest ih =>
      obtain ⟨k1, v1⟩ := p
      intro seen k
      simp only [flatParamsAux]
      by_cases h1 : k1 ∈ seen
      · rw [if_pos h1, ih]
        by_cases hks : k ∈ seen
        · simp [hks]
        · rw [if_neg hks, if_neg hks, getFirst_cons]
          have hne : k1 ≠ k := fun he => hks (he ▸ h1)
          rw [if_neg hne]
      · rw [if_neg h1, getFirst_cons, ih, getFirst_cons]
        by_cases hk : k1 = k
        · subst hk
          rw [if_pos rfl, if_neg h1, if_pos rfl]
        · rw [if_neg hk, if_neg hk]
          have hiff : (k ∈ k1 :: seen) ↔ (k ∈ seen) := by
            constructor
            · intro h
              rcases List.mem_cons.mp h with he | hs
              · exact absurd he.symm hk
              · exact hs
            · exact List.mem_cons_of_mem k1
          rw [if_congr hiff rfl rfl]

lemma flatParamsAux_keys (q : List (String × String)) :
    ∀ seen : List String,
      ((flatParamsAux seen q).map Prod.fst).Nodup ∧
        ∀ k ∈ (flatParamsAux seen q).map Prod.fst, k ∉ seen := by
  induction q with
  | nil => intro seen; exact ⟨List.nodup_nil, by simp [flatParamsAux]⟩
  | cons p rest ih =>
      obtain ⟨k1, v1⟩ := p
      intro seen
      simp only [flatParamsAux]
      by_cases h1 : k1 ∈ seen
      · rw [if_pos h1]; exact ih seen
      · rw [if_neg h1]
        obtain ⟨hnd, hdis⟩ := ih (k1 :: seen)
        refine ⟨?_, ?_⟩
        · simp only [List.map_cons]
          exact List.nodup_cons.mpr
            ⟨fun hmem => (hdis k1 hmem) (List.mem_cons_self _ _), hnd⟩
        · intro k hk
          simp only [List.map_cons, List.mem_cons] at hk
          rcases hk with rfl | hk
          · exact h1
          · exact fun hks => (hdis k hk) (List.mem_cons_of_mem _ hks)

lemma flatParamsAux_eq_self (u : List (String × String)) :
    ∀ seen : List String, ((u.map Prod.fst).Nodup) →
      (∀ k ∈ u.map Prod.fst, k ∉ seen) → flatParamsAux seen u = u := by
  induction u with
  | nil => intro seen _ _; rfl
  | cons p rest ih =>
      obtain ⟨k1, v1⟩ := p
      intro seen hnd hdis
      rw [List.map_cons] at hnd
      have hnd2 := List.nodup_cons.mp hnd
      simp only [flatParamsAux]
      rw [if_neg (hdis k1 (by simp))]
      congr 1
      apply ih
      · exact hnd2.2
      · intro k hk hmem
        rcases List.mem_cons.mp hmem with rfl | hks
        · exact hnd2.1 hk
        · exact hdis k (by simp [hk]) hks

lemma flatParams_keys_nodup (q : List (String × String)) :
    ((flatParams q).map Prod.fst).Nodup :=
  (flatParamsAux_keys q []).1

lemma flatParams_eq_self (u : List (String × String))
    (h : (u.map Prod.fst).Nodup) : flatParams u = u :=
  flatParamsAux_eq_self u [] h (by simp)

lemma getFirst_flatParams (q : List (String × String)) (k : String) :
    getFirst (flatParams q) k = getFirst q k := by
  rw [flatParams, getFirst_flatParamsAux]
  simp

lemma setParam_keys_nodup (u : List (String × String)) (k v : String)
    (h : (u.map Prod.fst).Nodup) :
    ((setParam u k v).map Prod.fst).Nodup := by
  unfold setParam
  by_cases ha : u.any (fun p => p.1 == k) = true
  · rw [if_pos ha]
    have hmap : (u.map (fun p => if p.1 == k then (k, v) else p)).map
        Prod.fst = u.map Prod.fst := by
      rw [List.map_map]
      apply List.map_congr_left
      intro p _
      by_cases hpk : (p.1 == k) = true
      · simp only [Function.comp_apply, if_pos hpk]
        exact (beq_iff_eq.mp hpk).symm
      · simp only [Function.comp_apply, if_neg hpk]
    rw [hmap]
    exact h
  · rw [if_neg ha, List.map_append]
    refine List.Nodup.append h (by simp) ?_
    intro a hau hak
    simp only [List.map_cons, List.map_nil, List.mem_singleton] at hak
    subst hak
    apply ha
    rw [List.any_eq_true]
    obtain ⟨p, hp, hpk⟩ := List.mem_map.mp hau
    exact ⟨p, hp, by simp [hpk]⟩

lemma getFirst_map_set_of_any (k v : String) :
    ∀ u : List (String × String), u.any (fun p => p.1 == k) = true →
      getFirst (u.map (fun p => if p.1 == k then (k, v) else p)) k =
        some v := by
  intro u
  induction u with
  | nil => intro h; simp at h
  | cons p rest ih =>
      intro h
      obtain ⟨k1, v1⟩ := p
      by_cases hpk : ((k1, v1).1 == k) = true
      · have hk1 : k1 = k := by simpa using hpk
        subst hk1
        simp [getFirst_cons]
      · have htail : rest.any (fun p => p.1 == k) = true := by
          rcases List.any_eq_true.mp h with ⟨p, hp, hpp⟩
          rcases List.mem_cons.mp hp with rfl | hp2
          · exact absurd hpp hpk
          · exact List.any_eq_true.mpr ⟨p, hp2, hpp⟩
        have hne : k1 ≠ k := by simpa using hpk
        simp only [List.map_cons, if_neg hpk, getFirst_cons, if_neg hne]
        exact ih htail

lemma getFirst_append_single_self (k v : String) :
    ∀ u : List (String × String),
      (∀ p ∈ u, ((p.1 == k) = false)) →
      getFirst (u ++ [(k, v)]) k = some v := by
  intro u
  induction u with
  | nil => intro _; simp [getFirst_cons]
  | cons p rest ih =>
      intro h
      obtain ⟨k1, v1⟩ := p
      have hne : k1 ≠ k := by
        have := h (k1, v1) (List.mem_cons_self _ _)
        simpa using this
      simp only [List.cons_append, getFirst_cons, if_neg hne]
      exact ih fun p hp => h p (List.mem_cons_of_mem _ hp)

lemma getFirst_map_set_other (k v k2 : String) (hne : k2 ≠ k) :
    ∀ u : List (String × String),
      getFirst (u.map (fun p => if p.1 == k then (k, v) else p)) k2 =
        getFirst u k2 := by
  intro u
  induction u with
  | nil => rfl
  | cons p rest ih =>
      obtain ⟨k1, v1⟩ := p
      by_cases hpk : ((k1, v1).1 == k) = true
      · have hk1 : k1 = k := by simpa using hpk
        subst hk1
        have hne2 : k1 ≠ k2 := fun he => hne (he.symm)
        simp only [List.map_cons, if_pos hpk, getFirst_cons, if_neg hne2]
        exact ih
      · simp only [List.map_cons, if_neg hpk, getFirst_cons]
        by_cases hk : k1 = k2
        · rw [if_pos hk, if_pos hk]
        · rw [if_neg hk, if_neg hk]
          exact ih

lemma getFirst_append_single_other (k v k2 : String) (hne : k2 ≠ k) :
    ∀ u : List (String × String),
      getFirst (u ++ [(k, v)]) k2 = getFirst u k2 := by
  intro u
  induction u with
  | nil =>
      have hkk : ¬ (k = k2) := fun he => hne he.symm
      simp only [List.nil_append, getFirst_cons, if_neg hkk]
  | cons p rest ih =>
      obtain ⟨k1, v1⟩ := p
      simp only [List.cons_append, getFirst_cons]
      by_cases hk : k1 = k2
      · rw [if_pos hk, if_pos hk]
      · rw [if_neg hk, if_neg hk]
        exact ih

lemma setParam_getFirst_same (u : List (String × String)) (k v : String) :
    getFirst (setParam u k v) k = some v := by
  unfold setParam
  by_cases ha : u.any (fun p => p.1 == k) = true
  · rw [if_pos ha]
    exact getFirst_map_set_of_any k v u ha
  · rw [if_neg ha]
    apply getFirst_append_single_self
    intro p hp
    by_contra hcon
    apply ha
    rw [List.any_eq_true]
    exact ⟨p, hp, by simpa using hcon⟩

lemma setParam_getFirst_other (u : List (String × String))
    (k v k2 : String) (hne : k2 ≠ k) :
    getFirst (setParam u k v) k2 = getFirst u k2 := by
  unfold setParam
  by_cases ha : u.any (fun p => p.1 == k) = true
  · rw [if_pos ha]
    exact getFirst_map_set_other k v k2 hne u
  · rw [if_neg ha]
    exact getFirst_append_single_other k v k2 hne u

lemma setParam_idem (u : List (String × String)) (k v : String) :
    setParam (setParam u k v) k v = setParam u k v := by
  by_cases ha : u.any (fun p => p.1 == k) = true
  · unfold setParam
    rw [if_pos ha]
    have ha2 : ((u.map (fun p => if p.1 == k then (k, v) else p)).any
        (fun p => p.1 == k)) = true := by
      rw [List.any_eq_true]
      obtain ⟨pp, hp, hpk⟩ := List.any_eq_true.mp ha
      refine ⟨(k, v), List.mem_map.mpr ⟨pp, hp, ?_⟩, by simp⟩
      show (if pp.1 == k then (k, v) else pp) = (k, v)
      rw [if_pos hpk]
    rw [if_pos ha2, List.map_map]
    apply List.map_congr_left
    intro p _
    by_cases hpk : (p.1 == k) = true
    · simp only [Function.comp_apply, if_pos hpk]
      rw [if_pos (by simp)]
    · simp only [Function.comp_apply, if_neg hpk, if_neg hpk]
  · unfold setParam
    rw [if_neg ha]
    have ha2 : ((u ++ [(k, v)]).any (fun p => p.1 == k)) = true := by
      rw [List.any_append]
      simp
    rw [if_pos ha2, List.map_append]
    congr 1
    · -- keys of u never match k, so the map is the identity
      have : ∀ p ∈ u, (if p.1 == k then (k, v) else p) = p := by
        intro p hp
        rw [if_neg]
        intro hcon
        exact ha (List.any_eq_true.mpr ⟨p, hp, hcon⟩)
      calc u.map (fun p => if p.1 == k then (k, v) else p)
          = u.map id := List.map_congr_left this
        _ = u := List.map_id u
    · simp

/-- C10 (confirmed): the currency-parameter helper always yields a query
whose currency key has value EUR, preserves the first value of every
other key, and is idempotent. -/
theorem add_currency_param_props (q : List (String × String)) :
    getFirst (add_currency_param q "EUR") "currency" = some "EUR" ∧
    (∀ k, k ≠ "currency" →
      getFirst (add_currency_param q "EUR") k = getFirst q k) ∧
    add_currency_param (add_currency_param q "EUR") "EUR" =
      add_currency_param q "EUR" := by
  refine ⟨?_, ?_, ?_⟩
  · exact setParam_getFirst_same _ _ _
  · intro k hk
    rw [add_currency_param, setParam_getFirst_other _ _ _ _ hk,
      getFirst_flatParams]
  · show setParam (flatParams (setParam (flatParams q) "currency" "EUR"))
        "currency" "EUR" = setParam (flatParams q) "currency" "EUR"
    rw [flatParams_eq_self _
      (setParam_keys_nodup _ _ _ (flatParams_keys_nodup q))]
    exact setParam_idem _ _ _

/-- C10 witness: a pre-existing checkIn parameter keeps its value after
the currency parameter is added. -/
theorem add_currency_param_props_witness :
    getFirst (add_currency_param [("checkIn", "2025-05-01")] "EUR")
        "checkIn" =
      getFirst [("checkIn", "2025-05-01")] "checkIn" :=
  (add_currency_param_props [("checkIn", "2025-05-01")]).2.1 "checkIn"
    (by decide)

end RentDjango
